import Mathlib

/-!
Verification of the `tonic` musical-time scheduler (Clock, Scheduler, Event,
MIDI backend) against its natural-language specification.

Time model.  `Instant` and `Duration` are modelled as non-negative integer
milliseconds: every `Duration` the program builds is a whole number of
milliseconds (`beat_ms` uses `Duration::from_millis`).  Rust semantics
mirrored here:
* `Instant - Instant` yields a `Duration` and saturates at zero when the
  subtrahend is later (Rust >= 1.60 `Instant::duration_since`); `Nat`
  truncated subtraction models this exactly.
* `Instant + Duration` is ordinary addition.
* `Instant - Duration` panics on underflow in Rust; the theorems below only
  evaluate it where no underflow occurs, and `Nat` truncated subtraction is
  used for the embedding.
* `Duration::div_duration_f64` divides two durations as `f64`; it is modelled
  as exact division in `ℚ`, and the `as u64` cast of a non-negative finite
  float is modelled as `Nat.floor`.  Theorems about `beat`/`bar` carry the
  hypothesis that the divisor (`tick`/`tock`) is positive, which is exactly
  the region where the float computation is finite and the model faithful.
* `u64 as u32` casts in the source are modelled as `% 2 ^ 32`.
-/

namespace Tonic

abbrev Instant := Nat
abbrev Duration := Nat

/-- `beat_ms` from `clock.rs`:
`Duration::from_millis(beat * (60000 / bpm))`.  `60000 / bpm` is `u64`
(truncating) division, modelled by `Nat` division. -/
def beatMs (beat bpm : Nat) : Duration :=
  beat * (60000 / bpm)

/-- The `Clock` struct from `clock.rs`: anchors `start` (for beats) and
`bar_start` (for bars), tempo `bpm` and meter `bpb`, all `u64`. -/
structure Clock where
  start : Instant
  bar_start : Instant
  bpm : Nat
  bpb : Nat
deriving DecidableEq

namespace Clock

/-- `Clock::new(bpm)`: both anchors at the current instant `now`, `bpb = 4`. -/
def new (bpm : Nat) (now : Instant) : Clock :=
  { start := now, bar_start := now, bpm := bpm, bpb := 4 }

/-- `Clock::tick`: `beat_ms(1, self.bpm)`, the duration of one beat. -/
def tick (c : Clock) : Duration :=
  beatMs 1 c.bpm

/-- `Clock::tock`: `beat_ms(self.bpb, self.bpm)`, the duration of one bar. -/
def tock (c : Clock) : Duration :=
  beatMs c.bpb c.bpm

/-- `Clock::beat`: `delta = now - start` (saturating), then
`(delta.div_duration_f64(tick) + 1.0) as u64`.  The float division is
modelled as exact rational division and the cast as `Nat.floor`. -/
def beat (c : Clock) (now : Instant) : Nat :=
  let delta : Nat := now - c.start
  ⌊(delta : ℚ) / (c.tick : ℚ) + 1⌋₊

/-- `Clock::beat_at`: `self.start + beat as u32 * self.tick()`.
The `as u32` cast truncates, hence the `% 2 ^ 32`. -/
def beatAt (c : Clock) (beat : Nat) : Instant :=
  c.start + beat % 2 ^ 32 * c.tick

/-- `Clock::beat_phase`: `delta = now - start`, then
`q = delta.div_duration_f64(tick)` and the result is `q - q.trunc()`
(`trunc = floor` since `q ≥ 0` here). -/
def beatPhase (c : Clock) (now : Instant) : ℚ :=
  let q : ℚ := ((now - c.start : Nat) : ℚ) / (c.tick : ℚ)
  q - ⌊q⌋₊

/-- `Clock::bar`: like `beat` but from the `bar_start` anchor with `tock`. -/
def bar (c : Clock) (now : Instant) : Nat :=
  let delta : Nat := now - c.bar_start
  ⌊(delta : ℚ) / (c.tock : ℚ) + 1⌋₊

/-- `Clock::bar_at`: `self.bar_start + bar as u32 * self.tock()`. -/
def barAt (c : Clock) (bar : Nat) : Instant :=
  c.bar_start + bar % 2 ^ 32 * c.tock

/-- `Clock::bar_phase`.  NOTE: the source computes
`let delta = Instant::now() - self.start;` — it measures from the *beat*
anchor `start`, not from `bar_start` — and then divides by `tock`. -/
def barPhase (c : Clock) (now : Instant) : ℚ :=
  let q : ℚ := ((now - c.start : Nat) : ℚ) / (c.tock : ℚ)
  q - ⌊q⌋₊

/-- `Clock::set_bpm`: reads `beat()`/`bar()` at the current instant, computes
the new tick/tock, re-anchors both `start` and `bar_start`, then commits
`bpm = new_bpm`.  `current_beat as u32` / `self.bpb as u32` casts are
`% 2 ^ 32`; `Instant - Duration` is truncated subtraction. -/
def setBpm (c : Clock) (newBpm : Nat) (now : Instant) : Clock :=
  let currentBeat := c.beat now
  let currentBar := c.bar now
  let newTick := beatMs 1 newBpm
  let newTock := newTick * (c.bpb % 2 ^ 32)
  let newStart := c.beatAt currentBeat - newTick * (currentBeat % 2 ^ 32)
  let newBarStart := c.barAt currentBar - newTock * (currentBar % 2 ^ 32)
  { c with start := newStart, bar_start := newBarStart, bpm := newBpm }

/-- `Clock::set_bpb`: reads `bar()` at the current instant, recomputes the
tock at the current `bpm`, re-anchors `bar_start`, commits `bpb = new_bpb`. -/
def setBpb (c : Clock) (newBpb : Nat) (now : Instant) : Clock :=
  let currentBar := c.bar now
  let newTock := beatMs newBpb c.bpm
  let newBarStart := c.barAt currentBar - newTock * (currentBar % 2 ^ 32)
  { c with bar_start := newBarStart, bpb := newBpb }

end Clock

/-- The `Event` struct from `event.rs`: an opaque string payload and a target
beat index. -/
structure Event where
  value : String
  beat : Nat
deriving DecidableEq

/-- A delayed job submitted to the scheduler's worker pool by `schedule_at`:
after `delay` elapses it performs `sender.send(evt)`, one send of `payload`
into the channel `channel`. -/
structure Job where
  delay : Duration
  channel : Nat
  payload : Event
deriving DecidableEq

/-- The `Scheduler` struct from `scheduler.rs`.  Channels are modelled by
`Nat` identifiers (a sender and the matching receiver share the identifier);
`nextChan` is the supply of fresh channel identifiers; `backends` holds the
registered backends (abstracted to identifiers) in registration order; the
worker pool holds no state the claims touch and jobs submitted to it are
returned by `scheduleAt` instead. -/
structure Scheduler where
  producers : List Nat
  backends : List Nat
  nextChan : Nat
deriving DecidableEq

namespace Scheduler

/-- `Scheduler::new(backends)`: stores the backends, starts with no
producers. -/
def new (backends : List Nat) : Scheduler :=
  { producers := [], backends := backends, nextChan := 0 }

/-- The loop body of `Scheduler::start_backends`, one iteration per
registered backend: create a channel, push the send half onto `producers`,
hand the receive half to `backend.run`.  The second component records the
(backend, channel) pairings made by the `run` calls, in order. -/
def startBackendsAux : List Nat → Scheduler → List (Nat × Nat) →
    Scheduler × List (Nat × Nat)
  | [], st, runs => (st, runs)
  | b :: bs, st, runs =>
      let chan := st.nextChan
      startBackendsAux bs
        { st with producers := st.producers ++ [chan], nextChan := st.nextChan + 1 }
        (runs ++ [(b, chan)])

/-- `Scheduler::start_backends`: iterates over the registered backends. -/
def startBackends (s : Scheduler) : Scheduler × List (Nat × Nat) :=
  startBackendsAux s.backends s []

/-- `Scheduler::schedule_at(at, event)`: for every retained producer, clone
the sender, compute `delay = at - Instant::now()` (`Instant - Instant`
saturates at zero), clone the event, and submit a delayed job that sends the
clone into that producer's channel.  The method only reads the scheduler's
fields, so the returned state is the input state; the submitted jobs are
returned alongside, in producer order. -/
def scheduleAt (s : Scheduler) (instant now : Instant) (e : Event) :
    Scheduler × List Job :=
  (s, s.producers.map fun p => { delay := instant - now, channel := p, payload := e })

end Scheduler

/-- Digit loop of Rust's `u8::from_str`: consume ASCII decimal digits,
accumulating `acc * 10 + d` with a `u8` overflow check at every step
(`checked_mul`/`checked_add`, i.e. the result must stay `≤ 255`); any
non-digit character or overflow is an error (`none`). -/
def parseU8Digits : List Char → Nat → Option Nat
  | [], acc => some acc
  | ch :: cs, acc =>
      if ch.isDigit then
        let acc' := acc * 10 + (ch.toNat - '0'.toNat)
        if acc' ≤ 255 then parseU8Digits cs acc' else none
      else none

/-- Rust's `str::parse::<u8>()`: empty string is an error; an optional
leading `'+'` is allowed (`'-'` is not, `u8` being unsigned); then at least
one digit, processed by `parseU8Digits` from accumulator `0`. -/
def parseU8 (s : String) : Option Nat :=
  match s.data with
  | [] => none
  | ch :: cs =>
      let digits := if ch = '+' then cs else ch :: cs
      match digits with
      | [] => none
      | _ => parseU8Digits digits 0

/-- `MidiEvent::to_midi` from `backends/midi.rs`:
`[NOTE_ON_MSG, self.value.parse::<u8>().unwrap(), VELOCITY]` with
`NOTE_ON_MSG = 0x90` and `VELOCITY = 0x64`.  The `unwrap` panic on a parse
error is modelled as `none`. -/
def toMidi (e : Event) : Option (List Nat) :=
  (parseU8 e.value).map fun note => [0x90, note, 0x64]

/-- One iteration of `MidiBackend::run`'s consumer loop on a received event:
the device writes it performs.  `to_midi` panics (via `unwrap`) before
`out.send` on a parse error, so a failed parse produces no write. -/
def midiWrites (e : Event) : List (List Nat) :=
  match toMidi e with
  | some msg => [msg]
  | none => []

/-- Follows the spec's words, for comparison with the source's `barPhase`:
"`bar_phase()`: fractional position within the current bar", "computed from
the `bar_start` anchor and `tock`". -/
def specBarPhase (c : Clock) (now : Instant) : ℚ :=
  let q : ℚ := ((now - c.bar_start : Nat) : ℚ) / (c.tock : ℚ)
  q - ⌊q⌋₊

/-- Concrete clock for the C1 failing input: `Clock::new(60)` with both
anchors at instant 0, default `bpb = 4`. -/
def c1clock : Clock :=
  { start := 0, bar_start := 0, bpm := 60, bpb := 4 }

/-- Concrete clock whose anchors have drifted apart (as they do after a
`set_bpb`): `bar_start` one second after `start`. -/
def c7clock : Clock :=
  { start := 0, bar_start := 1000, bpm := 60, bpb := 4 }

/-- Concrete clock with a meter too large for the `self.bpb as u32` cast in
`set_bpm`. -/
def c9clock : Clock :=
  { start := 0, bar_start := 0, bpm := 60, bpb := 2 ^ 32 }

/-- Concrete well-behaved clock used to instantiate witnesses. -/
def sampleClock : Clock :=
  { start := 0, bar_start := 0, bpm := 120, bpb := 4 }

/-- `beat` computes the floor-division formula: elapsed time since `start`
over `tick`, floored, plus one. -/
theorem Clock.beat_eq_div (c : Clock) (now : Instant) :
    c.beat now = (now - c.start) / c.tick + 1 := by
  unfold Clock.beat
  rw [Nat.floor_add_one (by positivity), Nat.floor_div_eq_div]

/-- `bar` computes the floor-division formula from `bar_start` and `tock`. -/
theorem Clock.bar_eq_div (c : Clock) (now : Instant) :
    c.bar now = (now - c.bar_start) / c.tock + 1 := by
  unfold Clock.bar
  rw [Nat.floor_add_one (by positivity), Nat.floor_div_eq_div]

/-- Shared cancellation step for the re-anchoring subtractions. -/
theorem add_mul_sub_mul (a k t : Nat) : a + k * t - t * k = a := by
  rw [Nat.mul_comm t k, Nat.add_sub_cancel]

/-- Unfolding of the `start_backends` loop: the producers gain one fresh
channel per backend, in order, and each backend is paired with the channel
created in its own iteration. -/
theorem Scheduler.startBackendsAux_eq (bs : List Nat) (st : Scheduler)
    (runs : List (Nat × Nat)) :
    Scheduler.startBackendsAux bs st runs =
      ({ st with producers := st.producers ++ List.range' st.nextChan bs.length,
                 nextChan := st.nextChan + bs.length },
       runs ++ bs.zip (List.range' st.nextChan bs.length)) := by
  induction bs generalizing st runs with
  | nil => simp [Scheduler.startBackendsAux]
  | cons b bs ih =>
      simp only [Scheduler.startBackendsAux, ih, List.length_cons, List.range'_succ,
        List.zip_cons_cons]
      refine Prod.ext ?_ ?_
      · simp [List.append_assoc]
        omega
      · simp

/-- Mapping a function of the channel over the backend/channel pairing is
mapping it over the channels. -/
theorem zip_range'_map_snd {γ : Type} (f : Nat → γ) :
    ∀ (bs : List Nat) (s : Nat),
      ((bs.zip (List.range' s bs.length)).map fun r => f r.2) =
        (List.range' s bs.length).map f
  | [], _ => rfl
  | b :: bs, s => by
      simp only [List.length_cons, List.range'_succ, List.zip_cons_cons, List.map_cons]
      exact congrArg _ (zip_range'_map_snd f bs (s + 1))

/-- The digit loop never yields a value above 255: the overflow check guards
every accumulation step. -/
theorem parseU8Digits_le (cs : List Char) (acc n : Nat) (hacc : acc ≤ 255)
    (h : parseU8Digits cs acc = some n) : n ≤ 255 := by
  induction cs generalizing acc with
  | nil =>
      simp only [parseU8Digits, Option.some.injEq] at h
      omega
  | cons ch cs ih =>
      simp only [parseU8Digits] at h
      split at h
      · split at h
        · exact ih _ (by omega) h
        · exact absurd h (by simp)
      · exact absurd h (by simp)

/-- Any successful `u8` parse is at most 255. -/
theorem parseU8_le (s : String) (n : Nat) (h : parseU8 s = some n) : n ≤ 255 := by
  unfold parseU8 at h
  split at h
  · exact absurd h (by simp)
  · dsimp only at h
    split at h
    · exact absurd h (by simp)
    · exact parseU8Digits_le _ 0 n (by omega) h

/-- On a freshly constructed scheduler whose backends have been started
exactly once, the `run` pairings cover the registered backends in order, and
`schedule_at` submits one job per pairing, aimed at that pairing's channel,
all carrying the scheduled event. -/
theorem Scheduler.started_scheduleAt (bs : List Nat) (instant now : Instant) (e : Event) :
    ((Scheduler.new bs).startBackends.2.map Prod.fst = bs) ∧
    (((Scheduler.new bs).startBackends.1.scheduleAt instant now e).2 =
      (Scheduler.new bs).startBackends.2.map fun r =>
        { delay := instant - now, channel := r.2, payload := e }) := by
  have h := Scheduler.startBackendsAux_eq bs (Scheduler.new bs) []
  unfold Scheduler.startBackends
  simp only [Scheduler.new] at h ⊢
  rw [h]
  constructor
  · exact List.map_fst_zip bs _ (by simp)
  · simp only [Scheduler.scheduleAt, List.nil_append, Nat.zero_add]
    exact (zip_range'_map_snd
      (fun p => ({ delay := instant - now, channel := p, payload := e } : Job)) bs 0).symm

/-- C1 (Invariant I2, tempo-change continuity): FAILS on the code.  With
`Clock::new(60)` (anchors at 0) and the wall clock at 8100 ms, `beat()`
returns 9 and `bar()` returns 3; immediately after `set_bpm(600)` — a
positive tempo, with no time elapsing — `beat()` returns 1 and `bar()`
returns 1.  The re-anchoring pins `beat_at(current_beat)`, the *end* of the
1-based current beat, so speeding the tempo up pushes the current instant
before the re-derived anchor and the indices are not preserved. -/
theorem C1_setBpm_breaks_beat_continuity :
    c1clock.beat 8100 = 9 ∧ c1clock.bar 8100 = 3 ∧
    (c1clock.setBpm 600 8100).beat 8100 = 1 ∧
    (c1clock.setBpm 600 8100).bar 8100 = 1 := by
  have h : c1clock.setBpm 600 8100 =
      { start := 8100, bar_start := 10800, bpm := 600, bpb := 4 } := by
    simp only [Clock.setBpm, Clock.beat_eq_div, Clock.bar_eq_div]
    decide
  refine ⟨?_, ?_, ?_, ?_⟩
  · rw [Clock.beat_eq_div]; decide
  · rw [Clock.bar_eq_div]; decide
  · rw [h, Clock.beat_eq_div]; decide
  · rw [h, Clock.bar_eq_div]; decide

/-- C2 (fan-out completeness): for a scheduler built over any list of
backends on which `start_backends` has run exactly once, a single
`schedule_at(at, e)` call submits exactly one delayed job per registered
backend, in registration order, each job sending a value-equal copy of `e`
into the channel that `start_backends` dedicated to that backend. -/
theorem C2_fanout_completeness (bs : List Nat) (instant now : Instant) (e : Event) :
    ((Scheduler.new bs).startBackends.2.map Prod.fst = bs) ∧
    (((Scheduler.new bs).startBackends.1.scheduleAt instant now e).2 =
      (Scheduler.new bs).startBackends.2.map fun r =>
        { delay := instant - now, channel := r.2, payload := e }) :=
  Scheduler.started_scheduleAt bs instant now e

/-- C3 (stale-schedule safety): when the target instant is already in the
past, `schedule_at` still submits one job per registered backend carrying the
event, and every submitted job's delay is clamped to zero (Rust's
`Instant - Instant` saturates); nothing panics. -/
theorem C3_stale_schedule_clamped (bs : List Nat) (instant now : Instant) (e : Event)
    (h : instant < now) :
    (((Scheduler.new bs).startBackends.1.scheduleAt instant now e).2 =
      (Scheduler.new bs).startBackends.2.map fun r =>
        { delay := 0, channel := r.2, payload := e }) ∧
    ∀ j ∈ ((Scheduler.new bs).startBackends.1.scheduleAt instant now e).2,
      j.delay = 0 := by
  have h0 : instant - now = 0 := Nat.sub_eq_zero_of_le h.le
  have hmain := (Scheduler.started_scheduleAt bs instant now e).2
  rw [h0] at hmain
  refine ⟨hmain, ?_⟩
  rw [hmain]
  intro j hj
  simp only [List.mem_map] at hj
  obtain ⟨r, _, rfl⟩ := hj
  rfl

/-- Witness for C3 at `bs = [3, 7]`, `at = 5`, `now = 10`. -/
theorem C3_stale_schedule_clamped_witness :
    (5 : Nat) < 10 ∧
    (((Scheduler.new [3, 7]).startBackends.1.scheduleAt 5 10
        { value := "60", beat := 1 }).2 =
      (Scheduler.new [3, 7]).startBackends.2.map fun r =>
        { delay := 0, channel := r.2, payload := { value := "60", beat := 1 } }) :=
  ⟨by decide,
   (C3_stale_schedule_clamped [3, 7] 5 10 { value := "60", beat := 1 } (by decide)).1⟩

/-- C4 counterexample: the claim quantifies over *every* non-negative beat
index, but `beat_at` casts the index with `as u32`; at index `2 ^ 32` the
cast wraps to 0 and `beat_at` returns `start`, not `start + 2 ^ 32 × tick`. -/
theorem C4_beatAt_u32_counterexample :
    sampleClock.beatAt (2 ^ 32) ≠ sampleClock.start + 2 ^ 32 * sampleClock.tick := by
  decide

/-- C4 (amended): for beat/bar indices below `2 ^ 32` (the range the `as u32`
cast preserves), `beat_at(b) = start + b × tick` and
`bar_at(n) = bar_start + n × tock`; `tick` is the truncated
integer-millisecond duration `60000 / bpm` ms, and
`beat_at(1) − beat_at(0) = 60000 / bpm` ms. -/
theorem C4_beatAt_formula (c : Clock) (b n : Nat) (hb : b < 2 ^ 32) (hn : n < 2 ^ 32) :
    c.beatAt b = c.start + b * c.tick ∧
    c.barAt n = c.bar_start + n * c.tock ∧
    c.tick = 60000 / c.bpm ∧
    c.beatAt 1 - c.beatAt 0 = 60000 / c.bpm := by
  refine ⟨?_, ?_, ?_, ?_⟩
  · rw [Clock.beatAt, Nat.mod_eq_of_lt hb]
  · rw [Clock.barAt, Nat.mod_eq_of_lt hn]
  · rw [Clock.tick, beatMs, Nat.one_mul]
  · show c.start + 1 % 2 ^ 32 * c.tick - (c.start + 0 % 2 ^ 32 * c.tick) = 60000 / c.bpm
    rw [Nat.mod_eq_of_lt (by norm_num), Nat.zero_mod, Nat.one_mul, Nat.zero_mul,
      Nat.add_zero, Nat.add_sub_cancel_left, Clock.tick, beatMs, Nat.one_mul]

/-- Witness for C4 at `b = 3`, `n = 2` on a 120 bpm clock. -/
theorem C4_beatAt_formula_witness :
    ((3 : Nat) < 2 ^ 32 ∧ (2 : Nat) < 2 ^ 32) ∧
    (sampleClock.beatAt 3 = sampleClock.start + 3 * sampleClock.tick ∧
     sampleClock.barAt 2 = sampleClock.bar_start + 2 * sampleClock.tock ∧
     sampleClock.tick = 60000 / sampleClock.bpm ∧
     sampleClock.beatAt 1 - sampleClock.beatAt 0 = 60000 / sampleClock.bpm) :=
  ⟨⟨by decide, by decide⟩, C4_beatAt_formula sampleClock 3 2 (by decide) (by decide)⟩

/-- C5: whenever one beat (`tick`) and one bar (`tock`) are a positive
duration and the wall clock is not earlier than the anchors, `beat()` returns
`floor(elapsed(start) / tick) + 1` and `bar()` returns
`floor(elapsed(bar_start) / tock) + 1`; both are total functions of the
current wall time and the current anchors. -/
theorem C5_beat_floor_formula (c : Clock) (now : Instant)
    (_htick : 0 < c.tick) (_hstart : c.start ≤ now)
    (_htock : 0 < c.tock) (_hbar : c.bar_start ≤ now) :
    c.beat now = (now - c.start) / c.tick + 1 ∧
    c.bar now = (now - c.bar_start) / c.tock + 1 :=
  ⟨c.beat_eq_div now, c.bar_eq_div now⟩

/-- Witness for C5 on a 120 bpm clock read at 1234 ms. -/
theorem C5_beat_floor_formula_witness :
    (0 < sampleClock.tick ∧ sampleClock.start ≤ 1234 ∧
     0 < sampleClock.tock ∧ sampleClock.bar_start ≤ 1234) ∧
    (sampleClock.beat 1234 = (1234 - sampleClock.start) / sampleClock.tick + 1 ∧
     sampleClock.bar 1234 = (1234 - sampleClock.bar_start) / sampleClock.tock + 1) :=
  ⟨⟨by decide, by decide, by decide, by decide⟩,
   C5_beat_floor_formula sampleClock 1234 (by decide) (by decide) (by decide) (by decide)⟩

/-- C6 counterexample: the claim says payload `"128"` is rejected as a parse
error with no device write, but Rust's `parse::<u8>()` accepts every value up
to 255: `"128"` encodes to `[0x90, 128, 0x64]` and a device write occurs. -/
theorem C6_payload_128_not_rejected :
    toMidi { value := "128", beat := 1 } = some [0x90, 128, 0x64] ∧
    midiWrites { value := "128", beat := 1 } ≠ [] :=
  ⟨by decide, by decide⟩

/-- C6 (amended): payload `"60"` encodes to exactly `[0x90, 60, 0x64]`;
payloads that do not parse as a `u8` — non-numeric like `"abc"`, or above 255
like `"256"` — are rejected and produce no device write; the accepted range
is 0–255 (not 0–127), so `"128"` is accepted and encodes `[0x90, 128, 0x64]`. -/
theorem C6_device_encoding :
    toMidi { value := "60", beat := 0 } = some [0x90, 60, 0x64] ∧
    toMidi { value := "abc", beat := 0 } = none ∧
    midiWrites { value := "abc", beat := 0 } = [] ∧
    toMidi { value := "256", beat := 0 } = none ∧
    toMidi { value := "128", beat := 0 } = some [0x90, 128, 0x64] ∧
    ∀ s n, parseU8 s = some n → n ≤ 255 :=
  ⟨by decide, by decide, by decide, by decide, by decide, parseU8_le⟩

/-- Witness for C6's general bound at `s = "7"`. -/
theorem C6_device_encoding_witness : parseU8 "7" = some 7 ∧ 7 ≤ 255 :=
  ⟨by decide, C6_device_encoding.2.2.2.2.2 "7" 7 (by decide)⟩

/-- C7: FAILS on the code for `bar_phase`.  The source's `bar_phase` measures
elapsed time from the *beat* anchor `start` instead of `bar_start` (the
anchor `bar()` itself uses).  On a clock whose anchors differ — `start = 0`,
`bar_start = 1000`, 60 bpm, 4 bpb — at instant 1000 the code returns `1/4`,
while the fractional position within the current bar measured from
`bar_start` (the spec's words) is `0`. -/
theorem C7_barPhase_wrong_anchor :
    c7clock.barPhase 1000 = 1 / 4 ∧ specBarPhase c7clock 1000 = 0 ∧
    c7clock.barPhase 1000 ≠ specBarPhase c7clock 1000 := by
  have h1 : c7clock.barPhase 1000 = 1 / 4 := by
    unfold Clock.barPhase
    norm_num [Clock.tock, beatMs, c7clock]
  have h2 : specBarPhase c7clock 1000 = 0 := by
    unfold specBarPhase
    norm_num [Clock.tock, beatMs, c7clock]
  exact ⟨h1, h2, by rw [h1, h2]; norm_num⟩

/-- C8 (frame of `set_bpb`): for any positive new meter, `set_bpb` leaves
`start` and `bpm` — hence `tick()` and every `beat_at(b)` — unchanged,
commits `bpb = new_bpb`, and the committed state's `tock` is recomputed at
the current `bpm` and the new meter. -/
theorem C8_setBpb_frame (c : Clock) (nb : Nat) (now : Instant) (_h : 0 < nb) :
    (c.setBpb nb now).start = c.start ∧
    (c.setBpb nb now).bpm = c.bpm ∧
    (c.setBpb nb now).bpb = nb ∧
    (c.setBpb nb now).tick = c.tick ∧
    (c.setBpb nb now).tock = beatMs nb c.bpm ∧
    ∀ b, (c.setBpb nb now).beatAt b = c.beatAt b :=
  ⟨rfl, rfl, rfl, rfl, rfl, fun _ => rfl⟩

/-- Witness for C8 at `new_bpb = 8` on a 120 bpm clock. -/
theorem C8_setBpb_frame_witness :
    (0 : Nat) < 8 ∧
    (sampleClock.setBpb 8 100).start = sampleClock.start ∧
    (sampleClock.setBpb 8 100).bpm = sampleClock.bpm ∧
    (sampleClock.setBpb 8 100).tock = beatMs 8 sampleClock.bpm ∧
    (sampleClock.setBpb 8 100).beatAt 5 = sampleClock.beatAt 5 :=
  ⟨by decide,
   (C8_setBpb_frame sampleClock 8 100 (by decide)).1,
   (C8_setBpb_frame sampleClock 8 100 (by decide)).2.1,
   (C8_setBpb_frame sampleClock 8 100 (by decide)).2.2.2.2.1,
   (C8_setBpb_frame sampleClock 8 100 (by decide)).2.2.2.2.2 5⟩

/-- C9 counterexample: retuning to the current tempo is *not* always a no-op.
`set_bpm` recomputes the bar duration as `new_tick * self.bpb as u32`; with
`bpb = 2 ^ 32` the cast wraps to 0, the re-anchoring subtraction no longer
cancels, and `bar_start` moves (here from 0 to 4294967296000). -/
theorem C9_setBpm_not_noop_counterexample :
    c9clock.setBpm c9clock.bpm 0 ≠ c9clock := by
  show c9clock.setBpm 60 0 ≠ c9clock
  have h : c9clock.setBpm 60 0 =
      { start := 0, bar_start := 4294967296000, bpm := 60, bpb := 2 ^ 32 } := by
    simp only [Clock.setBpm, Clock.beat_eq_div, Clock.bar_eq_div]
    decide
  rw [h]; decide

/-- C9 (amended): for every clock with positive tempo and meter, `set_bpb`
with the current `bpb` leaves the state exactly unchanged, and `set_bpm` with
the current `bpm` leaves the state exactly unchanged provided `bpb < 2 ^ 32`
(so that the `self.bpb as u32` cast in `set_bpm` is lossless); the
re-anchoring subtractions then cancel exactly. -/
theorem C9_retune_noop (c : Clock) (now : Instant) (_hm : 0 < c.bpm) (_hb : 0 < c.bpb) :
    (c.bpb < 2 ^ 32 → c.setBpm c.bpm now = c) ∧ c.setBpb c.bpb now = c := by
  obtain ⟨s, bs, m, b⟩ := c
  constructor
  · intro h32
    simp only [Clock.setBpm, Clock.beatAt, Clock.barAt, Clock.tick, Clock.tock, beatMs,
      Nat.one_mul, Clock.mk.injEq, and_true, true_and]
    simp only at h32
    rw [Nat.mod_eq_of_lt h32, Nat.mul_comm (60000 / m) b]
    exact ⟨add_mul_sub_mul s _ _, add_mul_sub_mul bs _ _⟩
  · simp only [Clock.setBpb, Clock.barAt, Clock.tock, beatMs, Clock.mk.injEq,
      and_true, true_and]
    exact add_mul_sub_mul bs _ _

/-- Witness for C9 on a 120 bpm, 4 bpb clock at 2000 ms. -/
theorem C9_retune_noop_witness :
    (0 < sampleClock.bpm ∧ 0 < sampleClock.bpb ∧ sampleClock.bpb < 2 ^ 32) ∧
    (sampleClock.setBpm sampleClock.bpm 2000 = sampleClock ∧
     sampleClock.setBpb sampleClock.bpb 2000 = sampleClock) :=
  ⟨⟨by decide, by decide, by decide⟩,
   (C9_retune_noop sampleClock 2000 (by decide) (by decide)).1 (by decide),
   (C9_retune_noop sampleClock 2000 (by decide) (by decide)).2⟩

/-- C10 (scheduler frame): `schedule_at` returns the scheduler state
unchanged — in particular the registered backends and the retained producers
are exactly those before the call — and `start_backends` is the only
operation that grows `producers`, appending exactly one sender per registered
backend, in order, while leaving the backend collection itself unchanged. -/
theorem C10_scheduler_frame (s : Scheduler) (instant now : Instant) (e : Event) :
    (s.scheduleAt instant now e).1 = s ∧
    s.startBackends.1.backends = s.backends ∧
    s.startBackends.1.producers = s.producers ++ List.range' s.nextChan s.backends.length ∧
    s.startBackends.1.producers.length = s.producers.length + s.backends.length := by
  have h := Scheduler.startBackendsAux_eq s.backends s []
  refine ⟨rfl, ?_, ?_, ?_⟩
  · rw [Scheduler.startBackends, h]
  · rw [Scheduler.startBackends, h]
  · rw [Scheduler.startBackends, h]
    simp

end Tonic
